import Mathlib

/-!
Shallow embedding of `put/fm/file_manager.py` (the `put` terminal file manager's
core model) and proofs about the claims of its specification.

The operating system is modelled as an oracle record `RawFS` whose fields stand
for the library calls the source makes (`os.listdir`, `os.path.getsize`,
`shutil.disk_usage`, `os.unlink`, ...).  Python exceptions are modelled with
`Except` for value-returning helpers; methods that mutate `self` and may raise
return `FileManager × Option FMError`: the first component is the state of the
object when the method returns or when the exception escapes (Python keeps all
field assignments already performed), the second is the escaping exception.
-/

/-- Exceptions raised by the Python runtime calls the source relies on:
`FileNotFoundError` / `NotADirectoryError` (from `os` calls), `IndexError`
(list subscripts), `KeyError` (`set.remove`), `OverflowError`
(`float(n)` on an int too large for a double). -/
inductive FMError where
  | fileNotFound (path : String)
  | notADirectory (path : String)
  | indexError (idx : Int)
  | keyError (idx : Int)
  | overflowError (n : Nat)
deriving Repr, DecidableEq

/-- Model of `os.path.join(wd, p)` on POSIX for the two-argument case: an
absolute second component wins, otherwise a single separator is inserted
unless `wd` is empty or already ends with one. -/
def joinPath (wd p : String) : String :=
  if p.data.head? = some '/' then p
  else if wd = "" then p
  else if wd.data.getLast? = some '/' then wd ++ p
  else wd ++ "/" ++ p

deriving instance DecidableEq for Except

/-- Oracle for the operating-system calls made by the source.  Boolean queries
(`os.path.islink`, `os.path.exists`, `os.path.isdir`) never raise in Python
(they return `False` on error), so they are total; `os.path.getsize`,
`os.listdir`, `shutil.disk_usage` and `os.unlink` can raise. -/
structure RawFS where
  disk_usage : String → Except FMError (Nat × Nat × Nat)
  listdir : String → Except FMError (List String)
  islink : String → Bool
  readlink : String → String
  pathExists : String → Bool
  isdir : String → Bool
  getsize : String → Except FMError Nat
  unlink : String → Except FMError Unit

/-- Snapshot produced by `FileMetadata.__init__` (the `modification_time`
method is not needed by any claim and is omitted). -/
structure FileMetadata where
  basename : String
  name : String
  islink : Bool
  isbrokenlink : Bool
  isdir : Bool
  size : Nat
deriving Repr, DecidableEq

/-- Model of `FileMetadata.__init__(self, wd, path)`:
`islink = os.path.islink(name)`;
`isbrokenlink = islink and not os.path.exists(os.readlink(name))`
(short-circuit: `readlink` is only consulted when `islink`);
`isdir = False if isbrokenlink else os.path.isdir(name)`;
`size = 0 if isbrokenlink else os.path.getsize(name)`.
Only the `getsize` call can raise, and it is skipped for broken links. -/
def FileMetadata.make (fs : RawFS) (wd path : String) : Except FMError FileMetadata :=
  if fs.islink (joinPath wd path) && !(fs.pathExists (fs.readlink (joinPath wd path))) then
    .ok { basename := path, name := joinPath wd path,
          islink := fs.islink (joinPath wd path),
          isbrokenlink := true, isdir := false, size := 0 }
  else
    match fs.getsize (joinPath wd path) with
    | .error e => .error e
    | .ok sz =>
      .ok { basename := path, name := joinPath wd path,
            islink := fs.islink (joinPath wd path),
            isbrokenlink := false, isdir := fs.isdir (joinPath wd path), size := sz }

/-- The `unit_list` table of `sizeof_fmt`:
`zip(['bytes','kB','MB','GB','TB','PB'], [0, 0, 1, 1, 1, 1])`. -/
def unit_list : List (String × Nat) :=
  List.zip ["bytes", "kB", "MB", "GB", "TB", "PB"] [0, 0, 1, 1, 1, 1]

/-- Round `a / b` (with `b > 0`) to the nearest integer, ties to even: the
rounding CPython's `'{:.Nf}'.format` applies to the exact value of the
formatted double. -/
def roundHalfEven (a b : Nat) : Nat :=
  let k := a / b
  let r := a % b
  if 2 * r < b then k
  else if b < 2 * r then k + 1
  else if k % 2 = 0 then k else k + 1

/-- Bit counter for values below `2^fuel`, one bit per step; written with an
explicit fuel argument (the first) so that the kernel can evaluate it on
literals. -/
def bitLenSmall : Nat → Nat → Nat
  | 0, _ => 0
  | fuel + 1, n => if n = 0 then 0 else bitLenSmall fuel (n / 2) + 1

/-- Fuel-driven bit counter recursing 64 bits at a time, so that kernel
evaluation stays shallow even for numbers in the `float`-overflow range;
any fuel at least the bit length works. -/
def bitLenAux : Nat → Nat → Nat
  | 0, _ => 0
  | fuel + 1, n =>
    if n < 2 ^ 64 then bitLenSmall 64 n else bitLenAux fuel (n / 2 ^ 64) + 64

/-- Bit length of `n` (`n.bit_length()` in Python): `0` for `0`, otherwise
`⌊log₂ n⌋ + 1`. -/
def bitLen (n : Nat) : Nat := bitLenAux n n

/-- Model of CPython `float(n)` for a non-negative int `n`: round `n` to 53
significant bits, ties to even, and raise `OverflowError` when the rounded
value reaches `2^1024` (the IEEE-754 binary64 overflow threshold).  The
result is returned as the exact integer value of the double, which is exact
because every double reachable from an int `≥ 1` has an integer value. -/
def pyFloat (n : Nat) : Except FMError Nat :=
  if bitLen n ≤ 53 then .ok n
  else
    let sh := bitLen n - 53
    let q := n / 2 ^ sh
    let r := n % 2 ^ sh
    let q2 :=
      if 2 * r < 2 ^ sh then q
      else if 2 ^ sh < 2 * r then q + 1
      else if q % 2 = 0 then q else q + 1
    if q2 * 2 ^ sh < 2 ^ 1024 then .ok (q2 * 2 ^ sh) else .error (.overflowError n)

/-- Render the exact rational `a / b` with `d` decimal places, rounding half
to even: the model of `'{:.df}'.format(a / b)`.  The caller passes for `a`
the exact value of the double being formatted (`pyFloat` of the original
int), and `b` is a power of two; dividing a double by a power of two is
exact (no underflow occurs at these magnitudes), and CPython formats a
double by correctly rounding its exact value, so this renders exactly what
`'{:.df}'` prints. -/
def formatFixed (d : Nat) (a b : Nat) : String :=
  if d = 0 then toString (roundHalfEven a b)
  else
    let t := roundHalfEven (a * 10 ^ d) b
    let frac := toString (t % 10 ^ d)
    let pad := String.mk (List.replicate (d - frac.length) '0')
    toString (t / 10 ^ d) ++ "." ++ pad ++ frac

/-- Executable form of the exponent `min(int(math.log(num, 1024)), 5)` used
by `sizeof_fmt`, written as boundary comparisons; it equals the exact
clamped floor logarithm (see `logExponent_eq_log`).  Faithfulness to the
IEEE-double computation `int(math.log(num)/math.log(1024))`: for `n < 1024^4`
the two agree — away from powers of `1024` the double quotient is orders of
magnitude closer to the exact value than to the next integer; at `n = 1024`
and `n = 1024^2` the quotient is exactly `1.0`/`2.0` for any correctly
rounded `log` (scaling a double by 2 is exact); and at `n = 1024^3` the
quotient was verified to be exactly `3.0`.  Above `1024^4` the double can
differ from the exact floor by one near powers of `1024` (at `1024^5 - 1`
it rounds up to `5.0`), so results there are platform-dependent and no
theorem below relies on this range except at verified inputs. -/
def logExponent (n : Nat) : Nat :=
  if n < 1024 then 0
  else if n < 1024 ^ 2 then 1
  else if n < 1024 ^ 3 then 2
  else if n < 1024 ^ 4 then 3
  else if n < 1024 ^ 5 then 4
  else 5

/-- Model of the module-level `sizeof_fmt(num)`.  In the `num > 1` branch
the source computes the exponent first (`math.log` accepts arbitrary-size
ints) and then `quotient = float(num) / 1024 ** exponent`: the `float(num)`
conversion rounds to a double and raises `OverflowError` for ints at or
beyond the binary64 range, hence the `Except`; the subsequent division by
the power of two and the `'{:.df}'` formatting are exact on the rounded
value (see `pyFloat` and `formatFixed`).  Python falls off the end of the
function (returning `None`) when no branch fires, hence the `Option`; the
argument is an `Int` because callers may in principle pass any integer. -/
def sizeof_fmt (num : Int) : Except FMError (Option String) :=
  if 1 < num then
    let exponent := min (logExponent num.toNat) (unit_list.length - 1)
    let p := unit_list.getD exponent ("", 0)
    match pyFloat num.toNat with
    | .error e => .error e
    | .ok v => .ok (some (formatFixed p.2 v (1024 ^ exponent) ++ " " ++ p.1))
  else if num = 0 then .ok (some "0 bytes")
  else if num = 1 then .ok (some "1 byte")
  else .ok none

/-- State of a `FileManager` object: working directory, listing, disk-usage
triple, cached max name length, total size, selection set and selected size.
Python's `set` of indices is a duplicate-free `List Int` in insertion order
(set iteration order is unspecified in Python; indices are `Int` because
Python list subscripts accept negatives). -/
structure FileManager where
  wd : String
  files : List String
  total : Nat
  used : Nat
  free : Nat
  max_filename_len : Nat
  total_size : Nat
  selected_files : List Int
  selected_size : Nat
deriving DecidableEq

/-- Python `set.add`: a no-op when the element is already present. -/
def pyAdd (s : List Int) (i : Int) : List Int :=
  if i ∈ s then s else s ++ [i]

/-- Model of Python's eager `list(map(f, xs))` for a fallible `f`: elements
are evaluated left to right and the first raised exception escapes. -/
def pyMap (f : α → Except FMError β) : List α → Except FMError (List β)
  | [] => .ok []
  | x :: xs =>
    match f x with
    | .error e => .error e
    | .ok v =>
      match pyMap f xs with
      | .error e => .error e
      | .ok vs => .ok (v :: vs)

/-- Python list subscript `xs[i]`: non-negative indices below the length, or
negative indices counted from the end; anything else raises `IndexError`. -/
def pyGet (xs : List String) (i : Int) : Except FMError String :=
  if 0 ≤ i ∧ i < xs.length then .ok (xs.getD i.toNat "")
  else if -(xs.length : Int) ≤ i ∧ i < 0 then .ok (xs.getD (xs.length - (-i).toNat) "")
  else .error (.indexError i)

/-- Model of `max(list(map(lambda x: len(x), files))) if files else 12`. -/
def maxNameLen (files : List String) : Nat :=
  match files.map String.length with
  | [] => 12
  | l :: ls => ls.foldl max l

/-- Model of `FileManager.recalculate_files_size(self, files)`:
`functools.reduce(lambda x, y: x + y, list(map(lambda x: FileMetadata(self.wd, x).size, files))) if files else 0`.
The eager `list(map(...))` resolves every metadata snapshot left to right, so
the first `getsize` failure escapes; the guarded `reduce` is a plain sum. -/
def recalculate_files_size (fs : RawFS) (wd : String) (files : List String) :
    Except FMError Nat :=
  match pyMap (fun x => (FileMetadata.make fs wd x).map (fun md => md.size)) files with
  | .error e => .error e
  | .ok sizes => .ok (sizes.foldl (· + ·) 0)

/-- Model of `FileManager.selected_file_paths`:
`list(map(lambda i: self.files[i], self.selected_files))`.  Set iteration
order is unspecified in Python; the model iterates in insertion order (the
sum taken of the result is order-independent). -/
def FileManager.selected_file_paths (m : FileManager) : Except FMError (List String) :=
  pyMap (pyGet m.files) m.selected_files

/-- Model of `FileManager.recalculate_selected_files_size`.  On an escaping
exception (stale index in the selection, or a vanished file) the state is
returned unchanged: the assignment to `selected_size` never happened. -/
def recalculate_selected_files_size (fs : RawFS) (m : FileManager) :
    FileManager × Option FMError :=
  match m.selected_file_paths with
  | .error e => (m, some e)
  | .ok ps =>
    match recalculate_files_size fs m.wd ps with
    | .error e => (m, some e)
    | .ok s => ({ m with selected_size := s }, none)

/-- Model of `FileManager.recalculate_total_files_size`. -/
def recalculate_total_files_size (fs : RawFS) (m : FileManager) :
    FileManager × Option FMError :=
  match recalculate_files_size fs m.wd m.files with
  | .error e => (m, some e)
  | .ok s => ({ m with total_size := s }, none)

/-- Model of `FileManager.refresh`.  The source mutates field by field:
disk usage first, then the sorted listing and `max_filename_len`, then
`total_size = 0` followed by the recalculation, and only at the very end the
clearing of the selection.  An exception at any step leaves every assignment
already made in place. -/
def refresh (fs : RawFS) (m : FileManager) : FileManager × Option FMError :=
  match fs.disk_usage m.wd with
  | .error e => (m, some e)
  | .ok tuf =>
    let m1 := { m with total := tuf.1, used := tuf.2.1, free := tuf.2.2 }
    match fs.listdir m1.wd with
    | .error e => (m1, some e)
    | .ok names =>
      let files := List.insertionSort (· ≤ ·) names
      let m2 := { m1 with files := files,
                          max_filename_len := maxNameLen files,
                          total_size := 0 }
      match recalculate_total_files_size fs m2 with
      | (m3, some e) => (m3, some e)
      | (m3, none) => ({ m3 with selected_files := [], selected_size := 0 }, none)

/-- Model of `FileManager.change_dir(self, workdir)`: the assignment
`self.wd = workdir` precedes `self.refresh()`, so it survives even when the
refresh raises. -/
def change_dir (fs : RawFS) (m : FileManager) (workdir : String) :
    FileManager × Option FMError :=
  refresh fs { m with wd := workdir }

/-- Model of `FileManager.get_path(self, idx)`:
`os.path.join(self.wd, self.files[idx])`. -/
def get_path (m : FileManager) (idx : Int) : Except FMError String :=
  match pyGet m.files idx with
  | .error e => .error e
  | .ok name => .ok (joinPath m.wd name)

/-- Model of `FileManager.select_file(self, idx)`: `set.add` never raises, so
the index lands in the selection even when the subsequent recalculation
raises (an out-of-range subscript or a vanished file). -/
def select_file (fs : RawFS) (m : FileManager) (idx : Int) :
    FileManager × Option FMError :=
  recalculate_selected_files_size fs { m with selected_files := pyAdd m.selected_files idx }

/-- Model of `FileManager.unselect_file(self, idx)`: `set.remove` raises
`KeyError` when the index is absent, in which case nothing was mutated. -/
def unselect_file (fs : RawFS) (m : FileManager) (idx : Int) :
    FileManager × Option FMError :=
  if idx ∈ m.selected_files then
    recalculate_selected_files_size fs { m with selected_files := m.selected_files.erase idx }
  else
    (m, some (.keyError idx))

/-- The loop body of `delete_selected_files`:
`for idx in self.selected_files: os.unlink(self.get_path(idx))`.
Returns the paths successfully unlinked (in iteration order) together with
the first escaping exception, which aborts the remaining iterations. -/
def unlink_loop (fs : RawFS) (m : FileManager) : List Int → List String × Option FMError
  | [] => ([], none)
  | idx :: rest =>
    match get_path m idx with
    | .error e => ([], some e)
    | .ok p =>
      match fs.unlink p with
      | .error e => ([], some e)
      | .ok _ =>
        let r := unlink_loop fs m rest
        (p :: r.1, r.2)

/-- Model of `FileManager.delete_selected_files`: the unlink loop followed by
`self.refresh()`.  An exception in the loop escapes before `refresh` runs;
the result carries the final state, the unlinked paths and the escaping
exception, if any. -/
def delete_selected_files (fs : RawFS) (m : FileManager) :
    FileManager × List String × Option FMError :=
  match unlink_loop fs m m.selected_files with
  | (done, some e) => (m, done, some e)
  | (done, none) =>
    let r := refresh fs m
    (r.1, done, r.2)

/-- Model of `FileManager.file_count`. -/
def file_count (m : FileManager) : Nat := m.files.length

/-- Model of `FileManager.selected_count`. -/
def selected_count (m : FileManager) : Nat := m.selected_files.length

/-! Concrete oracles and states used by witnesses and counterexamples. -/

/-- Oracle for a directory `/d` containing the single regular file `a` of
size 10 bytes, on a volume with 1000 total / 400 used / 600 free. -/
def fsGood : RawFS where
  disk_usage := fun p => if p = "/d" then .ok (1000, 400, 600) else .error (.fileNotFound p)
  listdir := fun p => if p = "/d" then .ok ["a"] else .error (.fileNotFound p)
  islink := fun _ => false
  readlink := fun _ => ""
  pathExists := fun p => p == "/d" || p == "/d/a"
  isdir := fun p => p == "/d"
  getsize := fun p => if p = "/d/a" then .ok 10 else .error (.fileNotFound p)
  unlink := fun p => if p = "/d/a" then .ok () else .error (.fileNotFound p)

/-- Oracle for the deletion scenario: the file `a` has just vanished from
`/d` (its unlink fails with `FileNotFoundError`), while unlinking `/d/b`
would still succeed; a fresh listing of `/d` returns only `b`. -/
def fsDel : RawFS where
  disk_usage := fun p => if p = "/d" then .ok (1000, 400, 600) else .error (.fileNotFound p)
  listdir := fun p => if p = "/d" then .ok ["b"] else .error (.fileNotFound p)
  islink := fun _ => false
  readlink := fun _ => ""
  pathExists := fun p => p == "/d" || p == "/d/b"
  isdir := fun p => p == "/d"
  getsize := fun p => if p = "/d/b" then .ok 20 else .error (.fileNotFound p)
  unlink := fun p => if p = "/d/b" then .ok () else .error (.fileNotFound p)

/-- Oracle where `/f` exists as a regular file: `shutil.disk_usage` succeeds
on it but `os.listdir` raises `NotADirectoryError`. -/
def fsFile : RawFS where
  disk_usage := fun p => if p = "/f" then .ok (1000, 400, 600) else .error (.fileNotFound p)
  listdir := fun p => .error (.notADirectory p)
  islink := fun _ => false
  readlink := fun _ => ""
  pathExists := fun p => p == "/f"
  isdir := fun _ => false
  getsize := fun p => if p = "/f" then .ok 7 else .error (.fileNotFound p)
  unlink := fun p => .error (.fileNotFound p)

/-- Oracle with a dangling symbolic link `l` inside `/d`: the link target
`/gone` does not exist. -/
def fsBroken : RawFS where
  disk_usage := fun p => if p = "/d" then .ok (1000, 400, 600) else .error (.fileNotFound p)
  listdir := fun p => if p = "/d" then .ok ["l"] else .error (.fileNotFound p)
  islink := fun p => p == "/d/l"
  readlink := fun p => if p = "/d/l" then "/gone" else ""
  pathExists := fun p => p == "/d" || p == "/d/l"
  isdir := fun _ => false
  getsize := fun p => .error (.fileNotFound p)
  unlink := fun p => .error (.fileNotFound p)

/-- Oracle where `/d` lists the single entry `b` whose size can no longer be
resolved: the file vanished between the listing and the stat (every
`getsize` raises `FileNotFoundError`). -/
def fsVanish : RawFS where
  disk_usage := fun p => if p = "/d" then .ok (1000, 400, 600) else .error (.fileNotFound p)
  listdir := fun p => if p = "/d" then .ok ["b"] else .error (.fileNotFound p)
  islink := fun _ => false
  readlink := fun _ => ""
  pathExists := fun p => p == "/d"
  isdir := fun p => p == "/d"
  getsize := fun p => .error (.fileNotFound p)
  unlink := fun p => .error (.fileNotFound p)

/-- Blank state a `FileManager` for `/d` starts from (before the constructor
runs `change_dir`). -/
def m0 : FileManager :=
  { wd := "/d", files := [], total := 0, used := 0, free := 0,
    max_filename_len := 0, total_size := 0, selected_files := [], selected_size := 0 }

/-- State after a successful `refresh` of `/d` under `fsGood`. -/
def mA : FileManager :=
  { wd := "/d", files := ["a"], total := 1000, used := 400, free := 600,
    max_filename_len := 1, total_size := 10, selected_files := [], selected_size := 0 }

/-- The state `mA` after selecting entry 0 (reachable by `select_file`). -/
def mSel : FileManager := (select_file fsGood mA 0).1

/-- Stale state listing `a` and `b` with both entries selected, as left by a
refresh and two selections made before `a` vanished from the disk. -/
def mTwo : FileManager :=
  { wd := "/d", files := ["a", "b"], total := 1000, used := 400, free := 600,
    max_filename_len := 1, total_size := 30, selected_files := [0, 1], selected_size := 30 }

/-- Metadata snapshot `fsBroken` resolves for the dangling link `l`. -/
def mdBroken : FileMetadata :=
  { basename := "l", name := "/d/l", islink := true, isbrokenlink := true,
    isdir := false, size := 0 }

/-! Helper lemmas. -/

theorem pyMap_append (f : α → Except FMError β) (l₁ l₂ : List α) :
    pyMap f (l₁ ++ l₂) =
      match pyMap f l₁ with
      | .error e => .error e
      | .ok vs =>
        match pyMap f l₂ with
        | .error e => .error e
        | .ok ws => .ok (vs ++ ws) := by
  induction l₁ with
  | nil =>
    simp only [List.nil_append, pyMap]
    cases pyMap f l₂ <;> rfl
  | cons x xs ih =>
    simp only [List.cons_append, List.append_eq, pyMap]
    cases f x with
    | error e => rfl
    | ok v =>
      rw [ih]
      cases pyMap f xs with
      | error e => rfl
      | ok vs =>
        cases pyMap f l₂ with
        | error e => rfl
        | ok ws => rfl

/-- The executable boundary-comparison exponent is exactly the clamped floor
logarithm `min (Nat.log 1024 n) 5`. -/
theorem logExponent_eq_log (n : Nat) : logExponent n = min (Nat.log 1024 n) 5 := by
  unfold logExponent
  split
  · next h =>
    have h0 : Nat.log 1024 n = 0 := Nat.log_eq_zero_iff.mpr (Or.inl h)
    simp [h0]
  · next h0 =>
    split
    · next h =>
      have : Nat.log 1024 n = 1 :=
        Nat.log_eq_of_pow_le_of_lt_pow (by omega) (by simpa using h)
      simp [this]
    · next h1 =>
      split
      · next h =>
        have : Nat.log 1024 n = 2 :=
          Nat.log_eq_of_pow_le_of_lt_pow (by omega) (by simpa using h)
        simp [this]
      · next h2 =>
        split
        · next h =>
          have : Nat.log 1024 n = 3 :=
            Nat.log_eq_of_pow_le_of_lt_pow (by omega) (by simpa using h)
          simp [this]
        · next h3 =>
          split
          · next h =>
            have : Nat.log 1024 n = 4 :=
              Nat.log_eq_of_pow_le_of_lt_pow (by omega) (by simpa using h)
            simp [this]
          · next h4 =>
            have h5 : 1024 ^ 5 ≤ n := by omega
            have : 5 ≤ Nat.log 1024 n :=
              (Nat.pow_le_iff_le_log (by norm_num) (by positivity)).mp h5
            omega

theorem unit_list_getD (e : Nat) (he : e ≤ 5) :
    unit_list.getD e ("", 0) =
      (["bytes", "kB", "MB", "GB", "TB", "PB"].getD e "", if e ≤ 1 then 0 else 1) := by
  interval_cases e <;> decide

theorem bitLenSmall_le_iff (fuel : Nat) :
    ∀ n k, n < 2 ^ fuel → (bitLenSmall fuel n ≤ k ↔ n < 2 ^ k) := by
  induction fuel with
  | zero =>
    intro n k hn
    have h0 : n = 0 := by
      rw [pow_zero] at hn
      omega
    subst h0
    show (0 : Nat) ≤ k ↔ 0 < 2 ^ k
    exact ⟨fun _ => pow_pos (by norm_num) k, fun _ => Nat.zero_le _⟩
  | succ fuel ih =>
    intro n k hn
    unfold bitLenSmall
    by_cases h0 : n = 0
    · subst h0
      rw [if_pos rfl]
      exact ⟨fun _ => pow_pos (by norm_num) k, fun _ => Nat.zero_le _⟩
    · rw [if_neg h0]
      cases k with
      | zero =>
        simp only [pow_zero]
        omega
      | succ k =>
        have hn2 : n / 2 < 2 ^ fuel := by
          rw [pow_succ] at hn
          omega
        rw [Nat.succ_le_succ_iff, ih (n / 2) k hn2, pow_succ]
        omega

theorem bitLenAux_le_iff (fuel : Nat) :
    ∀ n k, n ≤ fuel → (bitLenAux fuel n ≤ k ↔ n < 2 ^ k) := by
  induction fuel with
  | zero =>
    intro n k hn
    have h0 : n = 0 := Nat.le_zero.mp hn
    subst h0
    show (0 : Nat) ≤ k ↔ 0 < 2 ^ k
    exact ⟨fun _ => pow_pos (by norm_num) k, fun _ => Nat.zero_le _⟩
  | succ fuel ih =>
    intro n k hn
    unfold bitLenAux
    by_cases hsm : n < 2 ^ 64
    · rw [if_pos hsm]
      exact bitLenSmall_le_iff 64 n k hsm
    · rw [if_neg hsm]
      have h64 : (2 : Nat) ^ 64 ≤ n := le_of_not_lt hsm
      have hc : (0 : Nat) < 2 ^ 64 := pow_pos (by norm_num) _
      have hn2 : n / 2 ^ 64 ≤ fuel := by
        have hnpos : 0 < n := lt_of_lt_of_le hc h64
        have hlt : n / 2 ^ 64 < n := Nat.div_lt_self hnpos (by norm_num)
        omega
      by_cases hk : k < 64
      · constructor
        · intro hle
          omega
        · intro hlt
          exfalso
          have hle64 : (2 : Nat) ^ k ≤ 2 ^ 64 :=
            Nat.pow_le_pow_right (by norm_num) (by omega)
          omega
      · have hiff := ih (n / 2 ^ 64) (k - 64) hn2
        have hdiv : n / 2 ^ 64 < 2 ^ (k - 64) ↔ n < 2 ^ (k - 64) * 2 ^ 64 :=
          Nat.div_lt_iff_lt_mul hc
        have hpow : (2 : Nat) ^ (k - 64) * 2 ^ 64 = 2 ^ k := by
          rw [← pow_add]
          congr 1
          omega
        constructor
        · intro hle
          have h1 : bitLenAux fuel (n / 2 ^ 64) ≤ k - 64 := by omega
          have h2 := hiff.mp h1
          rw [← hpow]
          exact hdiv.mp h2
        · intro hlt
          have h2 : n / 2 ^ 64 < 2 ^ (k - 64) := hdiv.mpr (by rw [hpow]; exact hlt)
          have h1 := hiff.mpr h2
          omega

/-- The bit length of `n` is at most `k` exactly when `n < 2^k`. -/
theorem bitLen_le_iff (n k : Nat) : bitLen n ≤ k ↔ n < 2 ^ k :=
  bitLenAux_le_iff n n k le_rfl

/-- Ints below `2^53` convert to a double exactly. -/
theorem pyFloat_small (n : Nat) (h : n < 2 ^ 53) : pyFloat n = .ok n := by
  unfold pyFloat
  rw [if_pos ((bitLen_le_iff n 53).mpr h)]

/-! Claim theorems. -/

/-- **C9** (confirmed): for every oracle, directory and entry name, a
successfully resolved metadata snapshot with `isbrokenlink` set has
`isdir = false` and `size = 0`: the resolver short-circuits and never stats
through a dangling link. -/
theorem C9_broken_link_invariant (fs : RawFS) (wd path : String) (md : FileMetadata)
    (h : FileMetadata.make fs wd path = .ok md) (hb : md.isbrokenlink = true) :
    md.isdir = false ∧ md.size = 0 := by
  unfold FileMetadata.make at h
  split at h
  · cases h
    exact ⟨rfl, rfl⟩
  · split at h
    · cases h
    · cases h
      cases hb

/-- Witness for **C9**: the dangling link of `fsBroken` resolves successfully
with `isbrokenlink` set, and the theorem yields `isdir = false ∧ size = 0`. -/
theorem C9_witness :
    (FileMetadata.make fsBroken "/d" "l" = .ok mdBroken ∧ mdBroken.isbrokenlink = true) ∧
    mdBroken.isdir = false ∧ mdBroken.size = 0 :=
  ⟨⟨by decide, by decide⟩,
    C9_broken_link_invariant fsBroken "/d" "l" mdBroken (by decide) (by decide)⟩

set_option maxRecDepth 10000 in
/-- Counterexample for **C10**: `2^1100 ≥ 0`, yet `sizeof_fmt` does not
return a string — `float(num)` in the `num > 1` branch raises
`OverflowError` and the exception escapes. -/
theorem C10_counterexample :
    (0 : Int) ≤ ((2 ^ 1100 : Nat) : Int) ∧
    sizeof_fmt ((2 ^ 1100 : Nat) : Int) = .error (.overflowError (2 ^ 1100)) := by
  decide

/-- **C10** (corrected): `sizeof_fmt` returns a string for every non-negative
`num` whose `float` conversion is finite — in particular for every
`0 ≤ num < 2^53` unconditionally — and for every negative `num` it falls
through all three branches and returns `None`; but it is *not* total on all
of `num ≥ 0`: in the `num > 1` branch, `float(num)` raises `OverflowError`
for ints at or beyond the IEEE binary64 range and the exception escapes. -/
theorem C10_sizeof_fmt_totality (num : Int) :
    (0 ≤ num → ∀ v, pyFloat num.toNat = .ok v → ∃ s, sizeof_fmt num = .ok (some s)) ∧
    (0 ≤ num → num < 2 ^ 53 → ∃ s, sizeof_fmt num = .ok (some s)) ∧
    (1 < num → ∀ e, pyFloat num.toNat = .error e → sizeof_fmt num = .error e) ∧
    (num < 0 → sizeof_fmt num = .ok none) := by
  have h1 : 0 ≤ num → ∀ v, pyFloat num.toNat = .ok v →
      ∃ s, sizeof_fmt num = .ok (some s) := by
    intro h v hv
    unfold sizeof_fmt
    split
    · simp only [hv]
      exact ⟨_, rfl⟩
    · split
      · exact ⟨"0 bytes", rfl⟩
      · rw [if_pos (by omega)]
        exact ⟨"1 byte", rfl⟩
  refine ⟨h1, ?_, ?_, ?_⟩
  · intro h hlt
    refine h1 h num.toNat (pyFloat_small _ ?_)
    rw [show ((2 : Nat) ^ 53) = 9007199254740992 from by norm_num]
    rw [show ((2 : Int) ^ 53) = 9007199254740992 from by norm_num] at hlt
    omega
  · intro h e he
    unfold sizeof_fmt
    rw [if_pos h]
    simp only [he]
  · intro h
    unfold sizeof_fmt
    rw [if_neg (by omega), if_neg (by omega), if_neg (by omega)]

set_option maxRecDepth 10000 in
/-- Witness for **C10** at `num = 5` (string returned), `num = 2^1100`
(overflow raised) and `num = -3` (`None`). -/
theorem C10_witness :
    (∃ s, sizeof_fmt 5 = .ok (some s)) ∧
    sizeof_fmt ((2 ^ 1100 : Nat) : Int) = .error (.overflowError (2 ^ 1100)) ∧
    sizeof_fmt (-3) = .ok none :=
  ⟨(C10_sizeof_fmt_totality 5).2.1 (by decide) (by decide),
    (C10_sizeof_fmt_totality ((2 ^ 1100 : Nat) : Int)).2.2.1 (by decide) _ (by decide),
    (C10_sizeof_fmt_totality (-3)).2.2.2 (by decide)⟩

/-- Counterexample for **C3**: the claim asserts `sizeof_fmt(1536) == "1.5 kB"`,
but the `unit_list` table gives `kB` 0 decimal places, so the quotient 1.5 is
rounded (half to even) and 1536 bytes renders as `"2 kB"`. -/
theorem C3_counterexample : ¬ sizeof_fmt 1536 = .ok (some "1.5 kB") := by decide

/-- **C3** (corrected): `sizeof_fmt 0 = "0 bytes"`, `sizeof_fmt 1 = "1 byte"`,
`sizeof_fmt 1073741824 = "1.0 GB"` — but `sizeof_fmt 1536 = "2 kB"`, not
`"1.5 kB"` (the table gives kB 0 decimal places, and 1.5 rounds half-to-even
to 2); and for every `1 < num < 1024^4` — the range on which the IEEE-double
computation provably/verifiably agrees with exact arithmetic (see
`logExponent`), `float(num)` being exact there — the rendered string is the
quotient formatted with 0 decimal places for `bytes`/`kB` and 1 for
`MB`/`GB`, under the unit of index `floor(log_1024 num)` clamped to the
table.  Above `1024^4` the unit choice follows the platform's `math.log`,
which is known to deviate from the exact floor near powers of `1024`. -/
theorem C3_sizeof_fmt_amended :
    sizeof_fmt 0 = .ok (some "0 bytes") ∧ sizeof_fmt 1 = .ok (some "1 byte") ∧
    sizeof_fmt 1536 = .ok (some "2 kB") ∧ sizeof_fmt 1073741824 = .ok (some "1.0 GB") ∧
    ∀ num : Int, 1 < num → num < 1024 ^ 4 →
      sizeof_fmt num =
        .ok (some (formatFixed (if min (Nat.log 1024 num.toNat) 5 ≤ 1 then 0 else 1)
            num.toNat (1024 ^ min (Nat.log 1024 num.toNat) 5) ++ " " ++
          ["bytes", "kB", "MB", "GB", "TB", "PB"].getD (min (Nat.log 1024 num.toNat) 5) "")) := by
  refine ⟨by decide, by decide, by decide, by decide, fun num h hlt => ?_⟩
  have hexp : min (logExponent num.toNat) (unit_list.length - 1) =
      min (Nat.log 1024 num.toNat) 5 := by
    rw [logExponent_eq_log]
    show min (min (Nat.log 1024 num.toNat) 5) 5 = min (Nat.log 1024 num.toNat) 5
    rw [min_assoc, min_self]
  have hfl : pyFloat num.toNat = .ok num.toNat := by
    refine pyFloat_small _ ?_
    rw [show ((2 : Nat) ^ 53) = 9007199254740992 from by norm_num]
    rw [show ((1024 : Int) ^ 4) = 1099511627776 from by norm_num] at hlt
    omega
  simp only [sizeof_fmt, if_pos h, hexp, hfl, unit_list_getD _ (min_le_right _ _)]

/-- Witness for the universally quantified part of the **C3** theorem at
`num = 2048`. -/
theorem C3_witness :
    sizeof_fmt 2048 =
      .ok (some (formatFixed (if min (Nat.log 1024 (2048 : Int).toNat) 5 ≤ 1 then 0 else 1)
          (2048 : Int).toNat (1024 ^ min (Nat.log 1024 (2048 : Int).toNat) 5) ++ " " ++
        ["bytes", "kB", "MB", "GB", "TB", "PB"].getD
          (min (Nat.log 1024 (2048 : Int).toNat) 5) "")) :=
  C3_sizeof_fmt_amended.2.2.2.2 2048 (by decide) (by decide)

/-- Counterexample for **C4**: index 0 is not in the (empty) selection of
`mA`, yet `unselect_file` raises `KeyError` instead of being a no-op. -/
theorem C4_counterexample :
    mA.selected_files = [] ∧ (unselect_file fsGood mA 0).2 = some (.keyError 0) := by decide

/-- **C4** (corrected): for every index not currently selected,
`unselect_file` raises `KeyError` (from `set.remove`), leaving
`selected_files` and `selected_size` unchanged; the membership check that
makes redundant unselection a no-op lives in the UI caller, not here. -/
theorem C4_unselect_absent_amended (fs : RawFS) (m : FileManager) (idx : Int)
    (h : idx ∉ m.selected_files) :
    unselect_file fs m idx = (m, some (.keyError idx)) := by
  unfold unselect_file
  rw [if_neg h]

/-- Witness for **C4** at the concrete state `mA` and index 3. -/
theorem C4_witness : unselect_file fsGood mA 3 = (mA, some (.keyError 3)) :=
  C4_unselect_absent_amended fsGood mA 3 (by decide)

/-- On a successful `refresh` the selection is cleared and the selected size
reset to zero. -/
theorem refresh_ok_clears (fs : RawFS) (m : FileManager) (h : (refresh fs m).2 = none) :
    (refresh fs m).1.selected_files = [] ∧ (refresh fs m).1.selected_size = 0 := by
  unfold refresh at h ⊢
  rcases hdu : fs.disk_usage m.wd with e | tuf <;> simp only [hdu] at h ⊢
  · cases h
  rcases hld : fs.listdir m.wd with e | names <;> simp only [hld] at h ⊢
  · cases h
  rcases hrc : recalculate_total_files_size fs _ with ⟨m3, err⟩
  simp only [hrc] at h ⊢
  cases err
  · exact ⟨rfl, rfl⟩
  · cases h

/-- Counterexample for **C7**: refreshing `mSel` (entry 0 of the old listing
selected) under `fsVanish` — where `/d` now lists `b` but its size can no
longer be resolved — raises, yet the new listing `["b"]` has been installed
while the old selection `[0]` with `selected_size = 10` is retained: the
selection travelled across a re-listing. -/
theorem C7_counterexample :
    (refresh fsVanish mSel).2 = some (.fileNotFound "/d/b") ∧
    (refresh fsVanish mSel).1.files = ["b"] ∧ mSel.files = ["a"] ∧
    (refresh fsVanish mSel).1.selected_files = [0] ∧
    (refresh fsVanish mSel).1.selected_size = 10 := by decide

/-- **C7** (corrected): a `change_dir` or `refresh` that completes without
raising always leaves `selected_files = ∅` and `selected_size = 0`; but a
refresh that raises *after* the re-listing — an entry vanishing between
`os.listdir` and the size recalculation — installs the new listing while
keeping the previous selection and selected size, so a selection can
survive an aborted re-listing. -/
theorem C7_selection_cleared (fs : RawFS) (m : FileManager) (wd : String) :
    ((refresh fs m).2 = none →
      (refresh fs m).1.selected_files = [] ∧ (refresh fs m).1.selected_size = 0) ∧
    ((change_dir fs m wd).2 = none →
      (change_dir fs m wd).1.selected_files = [] ∧
      (change_dir fs m wd).1.selected_size = 0) ∧
    (∀ t u f names e, fs.disk_usage m.wd = .ok (t, u, f) →
      fs.listdir m.wd = .ok names →
      recalculate_files_size fs m.wd (List.insertionSort (· ≤ ·) names) = .error e →
      (refresh fs m).1.files = List.insertionSort (· ≤ ·) names ∧
      (refresh fs m).1.selected_files = m.selected_files ∧
      (refresh fs m).1.selected_size = m.selected_size ∧
      (refresh fs m).2 = some e) := by
  refine ⟨refresh_ok_clears fs m, refresh_ok_clears fs { m with wd := wd }, ?_⟩
  intro t u f names e hdu hld hrc
  unfold refresh
  simp only [hdu, hld]
  unfold recalculate_total_files_size
  simp only [hrc]
  refine ⟨?_, ?_, ?_, ?_⟩ <;> trivial

/-- Witness for **C7**: the clearing parts at `mSel` under `fsGood` (refresh
and re-entering `/d` both clear the selection), and the failure part at
`mSel` under `fsVanish` (new listing installed, old selection kept). -/
theorem C7_witness :
    ((refresh fsGood mSel).1.selected_files = [] ∧
      (refresh fsGood mSel).1.selected_size = 0) ∧
    ((change_dir fsGood mSel "/d").1.selected_files = [] ∧
      (change_dir fsGood mSel "/d").1.selected_size = 0) ∧
    ((refresh fsVanish mSel).1.files = List.insertionSort (· ≤ ·) ["b"] ∧
      (refresh fsVanish mSel).1.selected_files = mSel.selected_files ∧
      (refresh fsVanish mSel).1.selected_size = mSel.selected_size ∧
      (refresh fsVanish mSel).2 = some (.fileNotFound "/d/b")) :=
  ⟨(C7_selection_cleared fsGood mSel "/d").1 (by decide),
    (C7_selection_cleared fsGood mSel "/d").2.1 (by decide),
    (C7_selection_cleared fsVanish mSel "/d").2.2 1000 400 600 ["b"] _
      (by decide) (by decide) (by decide)⟩

/-- Counterexample for **C2**: changing from `mA` (listing `/d`) to the
non-existent `/nope` raises, yet the resulting state is not the old state:
`workingDirectory` has already been overwritten with the invalid path.  The
switch is therefore not transactional. -/
theorem C2_counterexample :
    (change_dir fsGood mA "/nope").2 = some (.fileNotFound "/nope") ∧
    (change_dir fsGood mA "/nope").1 ≠ mA ∧
    (change_dir fsGood mA "/nope").1.wd = "/nope" ∧ mA.wd = "/d" := by decide

/-- **C2** (corrected): `change_dir` to a path that does not exist (the
disk-usage probe raises) or is not a directory (the listing raises) surfaces
the error, and `entries`, selection and aggregates are left unchanged — but
`workingDirectory` is already overwritten with the new path (and when the
listing is what fails, the disk-usage triple is overwritten too): the switch
is not transactional. -/
theorem C2_change_dir_amended (fs : RawFS) (m : FileManager) (wd : String) :
    (∀ e, fs.disk_usage wd = .error e →
      change_dir fs m wd = ({ m with wd := wd }, some e)) ∧
    (∀ t u f e, fs.disk_usage wd = .ok (t, u, f) → fs.listdir wd = .error e →
      change_dir fs m wd = ({ m with wd := wd, total := t, used := u, free := f }, some e)) := by
  constructor
  · intro e he
    unfold change_dir refresh
    simp only [he]
  · intro t u f e hdu hld
    unfold change_dir refresh
    simp only [hdu, hld]

/-- Witness for **C2**: the first part at the missing path `/nope`, the
second at the regular file `/f` (where `disk_usage` succeeds but the listing
raises `NotADirectoryError`). -/
theorem C2_witness :
    change_dir fsGood mA "/nope" = ({ mA with wd := "/nope" }, some (.fileNotFound "/nope")) ∧
    change_dir fsFile mA "/f" =
      ({ mA with wd := "/f", total := 1000, used := 400, free := 600 },
        some (.notADirectory "/f")) :=
  ⟨(C2_change_dir_amended fsGood mA "/nope").1 _ (by decide),
    (C2_change_dir_amended fsFile mA "/f").2 1000 400 600 _ (by decide) (by decide)⟩

/-- The guarded `functools.reduce` over `+` is the list sum. -/
theorem foldl_add_eq_sum (l : List Nat) : l.foldl (· + ·) 0 = l.sum := by
  rw [List.sum_eq_foldl]

/-- **C6** (confirmed): after a `refresh` that completes without raising, the
listing is sorted ascending (codepoint order on names), duplicate-free
whenever the directory listing itself was (real listings always are), and
`total_size` is the sum of the sizes resolved for the entries. -/
theorem C6_refresh_sorted_total (fs : RawFS) (m : FileManager)
    (h : (refresh fs m).2 = none) :
    (refresh fs m).1.files.Sorted (· ≤ ·) ∧
    (∀ names, fs.listdir m.wd = .ok names → names.Nodup → (refresh fs m).1.files.Nodup) ∧
    ∃ sizes,
      pyMap (fun nm => (FileMetadata.make fs m.wd nm).map (fun md => md.size))
        (refresh fs m).1.files = .ok sizes ∧
      (refresh fs m).1.total_size = sizes.sum := by
  unfold refresh at h ⊢
  rcases hdu : fs.disk_usage m.wd with e | tuf <;> simp only [hdu] at h ⊢
  · cases h
  rcases hld : fs.listdir m.wd with e | names <;> simp only [hld] at h ⊢
  · cases h
  unfold recalculate_total_files_size at h ⊢
  unfold recalculate_files_size at h ⊢
  rcases hp : pyMap (fun nm => (FileMetadata.make fs m.wd nm).map (fun md => md.size))
      (List.insertionSort (· ≤ ·) names) with e | sizes <;> simp only [hp] at h ⊢
  · cases h
  refine ⟨List.sorted_insertionSort _ _, fun names' hld' hnd => ?_, sizes, rfl, ?_⟩
  · obtain rfl := Except.ok.inj hld'
    exact ((List.perm_insertionSort _ names).nodup_iff).mpr hnd
  · exact foldl_add_eq_sum sizes

/-- Witness for **C6**: refreshing `/d` under `fsGood` from the blank state. -/
theorem C6_witness :
    (refresh fsGood m0).1.files.Sorted (· ≤ ·) ∧
    (∀ names, fsGood.listdir m0.wd = .ok names → names.Nodup →
      (refresh fsGood m0).1.files.Nodup) ∧
    ∃ sizes,
      pyMap (fun nm => (FileMetadata.make fsGood m0.wd nm).map (fun md => md.size))
        (refresh fsGood m0).1.files = .ok sizes ∧
      (refresh fsGood m0).1.total_size = sizes.sum :=
  C6_refresh_sorted_total fsGood m0 (by decide)

/-- A deletion loop that finishes without raising has resolved and unlinked
every index it was given. -/
theorem unlink_loop_ok_mem (fs : RawFS) (m : FileManager) (l : List Int)
    (h : (unlink_loop fs m l).2 = none) :
    ∀ idx ∈ l, ∃ p, get_path m idx = .ok p ∧ fs.unlink p = .ok () ∧
      p ∈ (unlink_loop fs m l).1 := by
  induction l with
  | nil => intro idx hidx; cases hidx
  | cons i rest ih =>
    intro idx hidx
    unfold unlink_loop at h ⊢
    rcases hg : get_path m i with e | p <;> simp only [hg] at h ⊢
    · cases h
    rcases hu : fs.unlink p with e | u <;> simp only [hu] at h ⊢
    · cases h
    rcases List.mem_cons.mp hidx with rfl | hmem
    · exact ⟨p, hg, hu, List.mem_cons_self _ _⟩
    · obtain ⟨q, h1, h2, h3⟩ := ih h idx hmem
      exact ⟨q, h1, h2, List.mem_cons_of_mem _ h3⟩

/-- **C1** (corrected): `delete_selected_files` attempts the selected entries
in iteration order; the *first* unlink failure escapes immediately as the
raised exception, aborting the remaining deletions with no collected failure
report and *without* calling `refresh()` (the stale listing and selection
are kept); only when every unlink succeeds does `refresh()` run. -/
theorem C1_delete_first_failure_aborts (fs : RawFS) (m : FileManager) :
    (∀ e, (unlink_loop fs m m.selected_files).2 = some e →
      delete_selected_files fs m = (m, (unlink_loop fs m m.selected_files).1, some e)) ∧
    ((unlink_loop fs m m.selected_files).2 = none →
      (delete_selected_files fs m).1 = (refresh fs m).1 ∧
      (delete_selected_files fs m).2.2 = (refresh fs m).2 ∧
      ∀ idx ∈ m.selected_files, ∃ p, get_path m idx = .ok p ∧ fs.unlink p = .ok () ∧
        p ∈ (delete_selected_files fs m).2.1) := by
  constructor
  · intro e he
    unfold delete_selected_files
    rcases hl : unlink_loop fs m m.selected_files with ⟨done, err⟩
    rw [hl] at he
    cases he
    rfl
  · intro hnone
    unfold delete_selected_files
    rcases hl : unlink_loop fs m m.selected_files with ⟨done, err⟩
    rw [hl] at hnone
    cases hnone
    refine ⟨rfl, rfl, fun idx hidx => ?_⟩
    obtain ⟨p, h1, h2, h3⟩ :=
      unlink_loop_ok_mem fs m m.selected_files (by rw [hl]) idx hidx
    rw [hl] at h3
    exact ⟨p, h1, h2, h3⟩

/-- Counterexample for **C1**: with entries `a`, `b` both selected and the
unlink of `/d/a` failing, the operation aborts with the raised exception:
`/d/b` (whose unlink would succeed) is never attempted, no failure report is
produced, and `refresh()` — which would have succeeded and cleared the
selection — is never called: the result state is the unchanged stale `mTwo`. -/
theorem C1_counterexample :
    delete_selected_files fsDel mTwo = (mTwo, [], some (.fileNotFound "/d/a")) ∧
    mTwo.selected_files = [0, 1] ∧
    get_path mTwo 1 = .ok "/d/b" ∧ fsDel.unlink "/d/b" = .ok () ∧
    (refresh fsDel mTwo).2 = none ∧ (refresh fsDel mTwo).1.selected_files = [] := by
  decide

/-- Witness for **C1**: deleting from `mSel` (entry 0 of `/d` selected) under
`fsGood`, where every unlink succeeds, unlinks `/d/a` and runs `refresh`. -/
theorem C1_witness :
    (delete_selected_files fsGood mSel).1 = (refresh fsGood mSel).1 ∧
    (delete_selected_files fsGood mSel).2.2 = (refresh fsGood mSel).2 ∧
    ∀ idx ∈ mSel.selected_files, ∃ p, get_path mSel idx = .ok p ∧
      fsGood.unlink p = .ok () ∧ p ∈ (delete_selected_files fsGood mSel).2.1 :=
  (C1_delete_first_failure_aborts fsGood mSel).2 (by decide)

theorem pyMap_singleton (f : α → Except FMError β) (x : α) :
    pyMap f [x] = match f x with | .error e => .error e | .ok v => .ok [v] := by
  cases hf : f x <;> simp [pyMap, hf]

/-- Subscripts at or beyond either end of the list raise `IndexError`. -/
theorem pyGet_out_of_range (xs : List String) (i : Int)
    (h : (xs.length : Int) ≤ i ∨ i < -(xs.length : Int)) :
    pyGet xs i = .error (.indexError i) := by
  unfold pyGet
  rw [if_neg (by omega), if_neg (by omega)]

/-- Subscripts within `[-len, len)` succeed (negative ones count from the
end, as in Python). -/
theorem pyGet_in_range (xs : List String) (i : Int)
    (h : -(xs.length : Int) ≤ i ∧ i < (xs.length : Int)) :
    ∃ nm, pyGet xs i = .ok nm := by
  unfold pyGet
  by_cases h0 : 0 ≤ i ∧ i < (xs.length : Int)
  · rw [if_pos h0]; exact ⟨_, rfl⟩
  · rw [if_neg h0, if_pos (by omega)]; exact ⟨_, rfl⟩

theorem recalc_ok_pyMap (fs : RawFS) (wd : String) (files : List String) (s : Nat)
    (h : recalculate_files_size fs wd files = .ok s) :
    ∃ sizes,
      pyMap (fun x => (FileMetadata.make fs wd x).map (fun md => md.size)) files = .ok sizes ∧
      s = sizes.foldl (· + ·) 0 := by
  unfold recalculate_files_size at h
  rcases hp : pyMap (fun x => (FileMetadata.make fs wd x).map (fun md => md.size)) files
    with e | sizes <;> rw [hp] at h
  · cases h
  · exact ⟨sizes, hp, (Except.ok.inj h).symm⟩

/-- Counterexample for **C5**: the negative index `-1` is accepted, not
rejected: with one entry listed, `select_file` at `-1` succeeds (selecting
the last entry, Python subscript semantics) and `get_path` resolves it. -/
theorem C5_counterexample :
    (select_file fsGood mA (-1)).2 = none ∧
    (select_file fsGood mA (-1)).1.selected_files = [-1] ∧
    (select_file fsGood mA (-1)).1.selected_size = 10 ∧
    get_path mA (-1) = .ok "/d/a" := by decide

/-- **C5** (corrected): `select_file(idx)` and `get_path(idx)` fail with
`IndexError` exactly for `idx ≥ len(files)` or `idx < -len(files)`; indices
in `[-len, len)` succeed (Python subscripts accept negatives), with
`select_file` additionally needing every selected entry's metadata to
resolve.  On the failing `select_file` the invalid index has already been
added to the selection when the exception escapes. -/
theorem C5_index_range_amended (fs : RawFS) (m : FileManager) (idx : Int)
    (ps : List String) (s0 : Nat)
    (hnotmem : idx ∉ m.selected_files)
    (hps : m.selected_file_paths = .ok ps)
    (hs0 : recalculate_files_size fs m.wd ps = .ok s0)
    (hres : ∀ nm, pyGet m.files idx = .ok nm →
      ∃ md, FileMetadata.make fs m.wd nm = .ok md) :
    (((m.files.length : Int) ≤ idx ∨ idx < -(m.files.length : Int)) →
      get_path m idx = .error (.indexError idx) ∧
      select_file fs m idx =
        ({ m with selected_files := m.selected_files ++ [idx] },
          some (.indexError idx))) ∧
    ((-(m.files.length : Int) ≤ idx ∧ idx < (m.files.length : Int)) →
      (∃ p, get_path m idx = .ok p) ∧ (select_file fs m idx).2 = none) := by
  have hps' : pyMap (pyGet m.files) m.selected_files = .ok ps := hps
  have hadd : pyAdd m.selected_files idx = m.selected_files ++ [idx] := by
    unfold pyAdd; rw [if_neg hnotmem]
  constructor
  · intro hout
    have hpg := pyGet_out_of_range m.files idx hout
    refine ⟨by unfold get_path; rw [hpg], ?_⟩
    unfold select_file recalculate_selected_files_size FileManager.selected_file_paths
    simp only [hadd, pyMap_append, pyMap_singleton, hps', hpg]
  · intro hin
    obtain ⟨nm, hnm⟩ := pyGet_in_range m.files idx hin
    obtain ⟨md, hmd⟩ := hres nm hnm
    obtain ⟨sizes, hsz, hs0eq⟩ := recalc_ok_pyMap fs m.wd ps s0 hs0
    refine ⟨⟨joinPath m.wd nm, by unfold get_path; rw [hnm]⟩, ?_⟩
    unfold select_file recalculate_selected_files_size FileManager.selected_file_paths
    simp only [hadd, pyMap_append, pyMap_singleton, hps', hnm]
    have hsize : (FileMetadata.make fs m.wd nm).map (fun md => md.size) = .ok md.size := by
      rw [hmd]; rfl
    unfold recalculate_files_size
    simp only [pyMap_append, pyMap_singleton, hsz, hsize]

/-- Witness for **C5**: under `fsGood` at the state `mA` (one entry), index 5
is rejected by both operations while index 0 succeeds for both. -/
theorem C5_witness :
    (get_path mA 5 = .error (.indexError 5) ∧
      select_file fsGood mA 5 =
        ({ mA with selected_files := mA.selected_files ++ [5] },
          some (.indexError 5))) ∧
    ((∃ p, get_path mA 0 = .ok p) ∧ (select_file fsGood mA 0).2 = none) :=
  ⟨(C5_index_range_amended fsGood mA 5 [] 0 (by decide) (by decide) (by decide)
      (fun nm h => by rw [show pyGet mA.files 5 = .error (.indexError 5) from by decide] at h; cases h)).1
      (by decide),
    (C5_index_range_amended fsGood mA 0 [] 0 (by decide) (by decide) (by decide)
      (fun nm h => by
        rw [show pyGet mA.files 0 = .ok "a" from by decide] at h
        cases h
        exact ⟨{ basename := "a", name := "/d/a", islink := false, isbrokenlink := false,
                 isdir := false, size := 10 }, by decide⟩)).2
      (by decide)⟩

/-- Erasing a freshly appended element recovers the original list. -/
theorem erase_append_not_mem (s : List Int) (idx : Int) (h : idx ∉ s) :
    (s ++ [idx]).erase idx = s := by
  induction s with
  | nil => simp
  | cons a as ih =>
    have hne : ¬(a == idx) = true := by
      simp only [beq_iff_eq]
      exact fun he => h (he ▸ List.mem_cons_self a as)
    simp only [List.cons_append, List.erase_cons, if_neg hne]
    rw [ih (fun hm => h (List.mem_cons_of_mem a hm))]

/-- Counterexample for **C8**: index 0 is valid but already selected in
`mSel` (pre-select `selected_size = 10`); selecting it again (a set no-op)
and then unselecting it drops it from the selection, so `selected_size`
lands at 0, not back at its pre-select value 10. -/
theorem C8_counterexample :
    (0 : Int) ∈ mSel.selected_files ∧ mSel.selected_size = 10 ∧
    (select_file fsGood mSel 0).2 = none ∧
    (unselect_file fsGood (select_file fsGood mSel 0).1 0).2 = none ∧
    (unselect_file fsGood (select_file fsGood mSel 0).1 0).1.selected_size = 0 ∧
    (unselect_file fsGood (select_file fsGood mSel 0).1 0).1.selected_size ≠
      mSel.selected_size := by decide

/-- **C8** (corrected): for a valid index *not already selected*, under an
unchanged filesystem and a consistent starting state, `select_file` followed
by `unselect_file` restores the entire state — in particular
`selected_size` returns to its pre-select value and the index is removed
from the selection.  (For an index that was already selected the round trip
removes it and `selected_size` does not return to its pre-select value, as
the counterexample shows.) -/
theorem C8_roundtrip_amended (fs : RawFS) (m : FileManager) (idx : Int)
    (hnot : idx ∉ m.selected_files)
    (hcons : recalculate_selected_files_size fs m = (m, none))
    (hsel : (select_file fs m idx).2 = none) :
    unselect_file fs (select_file fs m idx).1 idx = (m, none) := by
  obtain ⟨ps, hp, hr⟩ : ∃ ps, m.selected_file_paths = .ok ps ∧
      recalculate_files_size fs m.wd ps = .ok m.selected_size := by
    unfold recalculate_selected_files_size at hcons
    rcases hsfp : m.selected_file_paths with e | ps <;> simp only [hsfp] at hcons
    · simp at hcons
    · rcases hrc : recalculate_files_size fs m.wd ps with e | s <;>
        simp only [hrc] at hcons
      · simp at hcons
      · have h1 : ({ m with selected_size := s } : FileManager) = m :=
          congrArg Prod.fst hcons
        have h2 : s = m.selected_size := congrArg FileManager.selected_size h1
        exact ⟨ps, rfl, h2 ▸ hrc⟩
  have hps' : pyMap (pyGet m.files) m.selected_files = .ok ps := hp
  have hadd : pyAdd m.selected_files idx = m.selected_files ++ [idx] := by
    unfold pyAdd; rw [if_neg hnot]
  unfold select_file recalculate_selected_files_size FileManager.selected_file_paths
    at hsel ⊢
  simp only [hadd, pyMap_append, pyMap_singleton, hps'] at hsel ⊢
  rcases hg : pyGet m.files idx with e | nm <;> simp only [hg] at hsel ⊢
  · cases hsel
  rcases hrc2 : recalculate_files_size fs m.wd (ps ++ [nm]) with e | s' <;>
    simp only [hrc2] at hsel ⊢
  · cases hsel
  unfold unselect_file
  rw [if_pos (by simp)]
  unfold recalculate_selected_files_size FileManager.selected_file_paths
  simp only [erase_append_not_mem _ _ hnot, hps', hr]

/-- Witness for **C8**: at `mA` (nothing selected, consistent sizes),
selecting then unselecting entry 0 restores the state exactly. -/
theorem C8_witness : unselect_file fsGood (select_file fsGood mA 0).1 0 = (mA, none) :=
  C8_roundtrip_amended fsGood mA 0 (by decide) (by decide) (by decide)
